import Mathlib

/-!
Formal model of the query-building and clause-composition engine
(`query_base.go` and the CREATE INDEX statement renderer) of a Go
SQL-builder library, together with proofs of its specified properties.

Conventions of the embedding:
* Go byte buffers (`[]byte`) are Lean `String`s; every renderer threads the
  buffer exactly as the Go code does.
* Go `error` values are `Option String` / `Except String _`; a Go function
  returning `(b []byte, err error)` becomes `Except String String`.
* Go nil-able pointers (`*schema.Table`, `tableModel`, the `columns` slice
  that distinguishes nil from empty) become `Option _`.
* The `sqlfmt` and `schema` packages are external collaborators that are not
  part of this repository's sources here; the few capabilities the engine
  consumes from them (fragment rendering, formatter, field/ table metadata)
  are modelled from the spec and are marked as such in their doc comments.
-/

namespace Bun

/-- Modelled from the spec: a bound SQL argument value. The spec's examples
only bind integers and strings, which is all the claims need. -/
inductive Arg where
  | int (n : Int)
  | str (s : String)
deriving DecidableEq, Repr

/-- Modelled from the spec: literal rendering of a bound value by a real
(dialect) formatter: integers print bare, strings print single-quoted. -/
def Arg.literal : Arg → String
  | .int n => toString n
  | .str s => "'" ++ s ++ "'"

/-- Fragment of SQL text plus optional positional arguments
(`sqlfmt.QueryWithArgs`; the spec's Clause Fragment). `Args = none` models a
Go nil argument slice: such a fragment with nonempty text is a raw
identifier, and with empty text it is a pure punctuation marker. -/
structure QueryWithArgs where
  Query : String
  Args : Option (List Arg)
deriving DecidableEq, Repr

/-- Modelled from the spec: `sqlfmt.SafeQuery` wraps text and arguments into
a fragment (a Go nil argument slice stays nil). -/
def sqlfmt.SafeQuery (query : String) (args : Option (List Arg)) : QueryWithArgs :=
  { Query := query, Args := args }

/-- Modelled from the spec: `sqlfmt.UnsafeIdent` wraps a name as a raw
identifier fragment — text only, absent arguments. -/
def sqlfmt.UnsafeIdent (ident : String) : QueryWithArgs :=
  { Query := ident, Args := none }

/-- Modelled from the spec: a fragment is zero when it is the Go zero value
(empty text, nil arguments). -/
def QueryWithArgs.IsZero (q : QueryWithArgs) : Bool :=
  q.Query == "" && q.Args == none

/-- Fragment with its logical separator (`sqlfmt.QueryWithSep`). -/
structure QueryWithSep extends QueryWithArgs where
  Sep : String
deriving DecidableEq, Repr

/-- Modelled from the spec: `sqlfmt.SafeQueryWithSep`. -/
def sqlfmt.SafeQueryWithSep (query : String) (args : Option (List Arg)) (sep : String) :
    QueryWithSep :=
  { Query := query, Args := args, Sep := sep }

/-- Modelled from the spec: the formatter capability (`sqlfmt.QueryFormatter`).
Two modes matter to the engine: the no-op (template) formatter that leaves
placeholders in place, and a literal formatter that substitutes values. -/
inductive Fmter where
  | nop
  | lit
deriving DecidableEq, Repr

/-- Modelled from the spec: `sqlfmt.IsNopFormatter` detects template mode. -/
def sqlfmt.IsNopFormatter : Fmter → Bool
  | .nop => true
  | .lit => false

/-- Modelled from the spec: `FormatQuery` renders query text through the
formatter. The engine only passes it plain identifiers/names (no
placeholders), for which both modes append the text unchanged. -/
def Fmter.FormatQuery (_fmter : Fmter) (b : String) (query : String) : String :=
  b ++ query

/-- Modelled from the spec: positional-placeholder substitution performed by
a literal formatter — each `?` consumes the next bound argument. -/
def substPlaceholders : List Char → List Arg → String
  | [], _ => ""
  | '?' :: cs, a :: rest => a.literal ++ substPlaceholders cs rest
  | c :: cs, rest => c.toString ++ substPlaceholders cs rest

/-- Modelled from the spec: rendering one fragment into the buffer
(`sqlfmt.QueryWithArgs.AppendQuery`). The template formatter emits the text
unchanged; the literal formatter substitutes the bound arguments. The
formatter failure path is never taken by these two formatters, so the
result is total. -/
def QueryWithArgs.AppendQuery (q : QueryWithArgs) (fmter : Fmter) (b : String) : String :=
  match fmter with
  | .nop => b ++ q.Query
  | .lit => b ++ substPlaceholders q.Query.data (q.Args.getD [])

/-- Modelled from the spec: `schema.Field` — the Go-side field name and the
column's SQL name. -/
structure Field where
  Name : String
  SQLName : String
deriving DecidableEq, Repr

/-- Placeholder for dereferencing a Go nil `*schema.Field` (a path the
engine only reaches after its own guards have ruled it out). -/
def nilField : Field := { Name := "", SQLName := "" }

/-- Modelled from the spec: `schema.Table` — the table-metadata descriptor:
SQL name, alias, ordered field list, primary keys, non-PK data fields and
the optional soft-delete field. -/
structure Table where
  SQLName : String
  Alias : String
  Fields : List Field
  PKs : List Field
  DataFields : List Field
  SoftDeleteField : Option Field
deriving DecidableEq, Repr

/-- Placeholder for dereferencing a Go nil `*schema.Table`. -/
def nilTable : Table :=
  { SQLName := "", Alias := "", Fields := [], PKs := [], DataFields := [],
    SoftDeleteField := none }

/-- Modelled from the spec: `schema.Table.CheckPKs` validates that the table
declares at least one primary-key field, else errors. -/
def Table.CheckPKs (t : Table) : Option String :=
  if t.PKs.isEmpty then some "bun: table has no primary key" else none

/-- Modelled from the spec: `schema.Field.AppendValue` appends the literal
rendering of the field's value taken from the model value (looked up by the
Go field name). -/
def Field.AppendValue (f : Field) (_fmter : Fmter) (b : String) (src : String → Arg) : String :=
  b ++ (src f.Name).literal

/-- Closed tagged union of model kinds dispatched on by `appendWherePK`:
a single entity (`structTableModel`, carrying its field values), a
collection (`sliceTableModel`, carrying the field values of each element),
or any other model kind (carrying its Go type name for the error text). -/
inductive ModelValue where
  | strct (vals : String → Arg)
  | slice (elems : List (String → Arg))
  | other (typeName : String)

/-- Table model wrapper: the bound model together with its table metadata
(`tableModel.Table()` in Go returns `tbl`). -/
structure TableModel where
  tbl : Table
  val : ModelValue

/-- Bitset `internal.Flag` of `query_base.go`, with one Bool per declared
bit: `wherePKFlag`, `deletedFlag`, `allWithDeletedFlag`. `Set`/`Remove`/`Has`
become field updates/reads. -/
structure Flags where
  wherePK : Bool
  deleted : Bool
  allWithDeleted : Bool
deriving DecidableEq, Repr

/-- Shared builder state `baseQuery`. The execution-only fields (`db`,
`dbi`, `model`) and the CTE list (`with`), which no claim touches, are
omitted; `columns : Option _` keeps Go's nil-vs-empty slice distinction
that `excludeColumn` relies on. -/
structure baseQuery where
  tableModel : Option TableModel
  table : Option Table
  err : Option String
  modelTable : QueryWithArgs
  tables : List QueryWithArgs
  columns : Option (List QueryWithArgs)
  flags : Flags

/-- Fresh builder state (all Go zero values). -/
def emptyBaseQuery : baseQuery :=
  { tableModel := none, table := none, err := none,
    modelTable := { Query := "", Args := none }, tables := [], columns := none,
    flags := { wherePK := false, deleted := false, allWithDeleted := false } }

/-- Sticky error recording: only the first error is kept. -/
def baseQuery.setErr (q : baseQuery) (err : String) : baseQuery :=
  if q.err = none then { q with err := some err } else q

/-- Model binding: `res` is the outcome of `newSingleModel` (an external
resolution step); on failure the error is recorded sticky, on success the
model and its table are stored. -/
def baseQuery.setTableModel (q : baseQuery) (res : Except String TableModel) : baseQuery :=
  match res with
  | .error e => q.setErr e
  | .ok m => { q with tableModel := some m, table := some m.tbl }

/-- Soft-delete precondition check. The Go code formats the middle message
with `%s` of the table; the table's rendering is modelled as its SQL name. -/
def baseQuery.checkSoftDelete (q : baseQuery) : Option String :=
  match q.table with
  | none => some "bun: can't use soft deletes without a table"
  | some t =>
    if t.SoftDeleteField = none then
      some (t.SQLName ++ " does not have a soft delete field")
    else
      match q.tableModel with
      | none => some "bun: can't use soft deletes without a table model"
      | some _ => none

/-- Filter to only soft-deleted rows (`whereDeleted`): sets `deletedFlag`,
clears `allWithDeletedFlag`. -/
def baseQuery.whereDeleted (q : baseQuery) : baseQuery :=
  match q.checkSoftDelete with
  | some e => q.setErr e
  | none => { q with flags := { q.flags with deleted := true, allWithDeleted := false } }

/-- Include soft-deleted rows (`whereAllWithDeleted`): sets
`allWithDeletedFlag`, clears `deletedFlag`. -/
def baseQuery.whereAllWithDeleted (q : baseQuery) : baseQuery :=
  match q.checkSoftDelete with
  | some e => q.setErr e
  | none => { q with flags := { q.flags with allWithDeleted := true, deleted := false } }

/-- Soft-delete filtering is active iff a table with a soft-delete field is
bound and the include-all flag is not set. -/
def baseQuery.isSoftDelete (q : baseQuery) : Bool :=
  match q.table with
  | some t => t.SoftDeleteField.isSome && !q.flags.allWithDeleted
  | none => false

/-- Appends a table reference fragment. -/
def baseQuery.addTable (q : baseQuery) (table : QueryWithArgs) : baseQuery :=
  { q with tables := q.tables ++ [table] }

/-- Appends a column reference fragment (a nil column slice becomes
non-nil, as Go's `append` makes it). -/
def baseQuery.addColumn (q : baseQuery) (column : QueryWithArgs) : baseQuery :=
  { q with columns := some (q.columns.getD [] ++ [column]) }

/-- One step of `_excludeColumn`: removes the first raw-identifier fragment
(absent arguments) whose text equals `column`, or reports failure. -/
def removeFirstColumn (column : String) : List QueryWithArgs → Option (List QueryWithArgs)
  | [] => none
  | c :: rest =>
    if c.Args = none ∧ c.Query = column then some rest
    else (removeFirstColumn column rest).map (c :: ·)

/-- Loop body of `excludeColumn` over the requested names; on the first
name that matches nothing, records the sticky error and stops. -/
def baseQuery.excludeColumnLoop : baseQuery → List String → baseQuery
  | q, [] => q
  | q, c :: rest =>
    match removeFirstColumn c (q.columns.getD []) with
    | some cs => baseQuery.excludeColumnLoop { q with columns := some cs } rest
    | none => q.setErr ("bun: can't find column=\"" ++ c ++ "\"")

/-- Column exclusion: a never-set (nil) column list is first materialized
from the table's full field list as raw identifiers, then each name is
removed in turn. (With no table bound and a nil column list the Go code
would dereference a nil pointer; the model materializes the empty list,
which no claim exercises.) -/
def baseQuery.excludeColumn (q : baseQuery) (columns : List String) : baseQuery :=
  let fs : List Field := match q.table with | some t => t.Fields | none => []
  let q1 :=
    if q.columns = none then
      { q with columns := some (fs.map fun f => sqlfmt.UnsafeIdent f.Name) }
    else q
  baseQuery.excludeColumnLoop q1 columns

/-- Comma-joined column list with optional table qualifier, iteration state
of the package-level `appendColumns` loop (`first` is `i = 0`). -/
def appendColumnsAux (table : String) : String → Bool → List Field → String
  | b, _, [] => b
  | b, first, f :: rest =>
    let b1 := if first then b else b ++ ", "
    let b2 := if table = "" then b1 else b1 ++ table ++ "."
    appendColumnsAux table (b2 ++ f.SQLName) false rest

/-- Package-level `appendColumns`: fields joined by `", "`, each prefixed
with `table ++ "."` when a table qualifier is given. -/
def appendColumns (b : String) (table : String) (fields : List Field) : String :=
  appendColumnsAux table b true fields

/-- Named-argument substitution (`baseQuery.AppendArg`): declines (buffer
unchanged, `false`) without a bound table or for an unknown name; resolves
the six table-derived placeholders otherwise. -/
def baseQuery.AppendArg (q : baseQuery) (fmter : Fmter) (b : String) (name : String) :
    String × Bool :=
  match q.table with
  | none => (b, false)
  | some t =>
    if name = "TableName" then (fmter.FormatQuery b t.SQLName, true)
    else if name = "TableAlias" then (fmter.FormatQuery b t.Alias, true)
    else if name = "PKs" then (appendColumns b "" t.PKs, true)
    else if name = "TablePKs" then (appendColumns b t.Alias t.PKs, true)
    else if name = "Columns" then (appendColumns b "" t.Fields, true)
    else if name = "TableColumns" then (appendColumns b t.Alias t.Fields, true)
    else (b, false)

/-- Does the model supply a table name (`modelHasTableName`)? -/
def baseQuery.modelHasTableName (q : baseQuery) : Bool :=
  !q.modelTable.IsZero || q.table.isSome

/-- First-table rendering (`_appendFirstTable`): model table expression,
else bound table (optionally aliased), else first explicit table ref, else
a structural error. -/
def baseQuery._appendFirstTable (q : baseQuery) (fmter : Fmter) (b : String)
    (withAlias : Bool) : Except String String :=
  if !q.modelTable.IsZero then .ok (q.modelTable.AppendQuery fmter b)
  else
    match q.table with
    | some t =>
      let b1 := fmter.FormatQuery b t.SQLName
      .ok (if withAlias && (t.Alias != t.SQLName) then b1 ++ " AS " ++ t.Alias else b1)
    | none =>
      match q.tables with
      | t0 :: _ => .ok (t0.AppendQuery fmter b)
      | [] => .error "bun: query does not have a table"

/-- `appendFirstTable` (no alias). -/
def baseQuery.appendFirstTable (q : baseQuery) (fmter : Fmter) (b : String) :
    Except String String :=
  q._appendFirstTable fmter b false

/-- Comma-joined fragment list (loop shared by `baseQuery.appendColumns`,
RETURNING items and the CREATE INDEX column/INCLUDE lists). -/
def joinFragsAux (fmter : Fmter) : String → Bool → List QueryWithArgs → String
  | b, _, [] => b
  | b, first, f :: rest =>
    let b1 := if first then b else b ++ ", "
    joinFragsAux fmter (f.AppendQuery fmter b1) false rest

/-- `baseQuery.appendColumns`: the explicit column-ref list joined by
commas. -/
def baseQuery.appendColumns (q : baseQuery) (fmter : Fmter) (b : String) : String :=
  joinFragsAux fmter b true (q.columns.getD [])

/-- Separator-carrying predicate list (`WhereQuery`; the Go field `where`
is spelled `whereList` because `where` is a Lean keyword). -/
structure WhereQuery where
  whereList : List QueryWithSep
deriving DecidableEq, Repr

/-- Appends one predicate fragment. -/
def WhereQuery.addWhere (q : WhereQuery) (w : QueryWithSep) : WhereQuery :=
  { q with whereList := q.whereList ++ [w] }

/-- AND-predicate. -/
def WhereQuery.Where (q : WhereQuery) (query : String) (args : Option (List Arg)) :
    WhereQuery :=
  q.addWhere (sqlfmt.SafeQueryWithSep query args " AND ")

/-- OR-predicate. -/
def WhereQuery.WhereOr (q : WhereQuery) (query : String) (args : Option (List Arg)) :
    WhereQuery :=
  q.addWhere (sqlfmt.SafeQueryWithSep query args " OR ")

/-- Grouping (`addWhereGroup`): runs `fn` on a fresh composer; an empty
result adds nothing; otherwise the nested list's first separator is
cleared and it is spliced between punctuation markers `sep ++ "("` and
`")"`. -/
def WhereQuery.addWhereGroup (q : WhereQuery) (sep : String) (fn : WhereQuery → WhereQuery) :
    WhereQuery :=
  let q2 := fn { whereList := [] }
  match q2.whereList with
  | [] => q
  | w0 :: rest =>
    { q with whereList :=
        q.whereList ++ [sqlfmt.SafeQueryWithSep "" none (sep ++ "(")] ++
          ({ w0 with Sep := "" } :: rest) ++ [sqlfmt.SafeQueryWithSep "" none ")"] }

/-- `WhereGroup` method (delegates to `addWhereGroup`). -/
def WhereQuery.WhereGroup (q : WhereQuery) (sep : String) (fn : WhereQuery → WhereQuery) :
    WhereQuery :=
  q.addWhereGroup sep fn

/-- Combined state `whereBaseQuery` (base state plus WHERE composer). -/
structure whereBaseQuery extends baseQuery, WhereQuery

/-- One iteration of the `_appendWhere` loop: the element first contributes
its separator (skipped for the very first element, `first` being the loop's
`i = 0`), then — unless it is a pure punctuation marker — its fragment
wrapped in parentheses. -/
def whereStep (fmter : Fmter) (b : String) (first : Bool) (w : QueryWithSep) : String :=
  let b1 := if first then b else b ++ w.Sep
  if w.Query = "" ∧ w.Args = none then b1
  else w.toQueryWithArgs.AppendQuery fmter (b1 ++ "(") ++ ")"

/-- Predicate-list rendering loop (`_appendWhere`). -/
def _appendWhere (fmter : Fmter) : String → Bool → List QueryWithSep → String
  | b, _, [] => b
  | b, first, w :: rest => _appendWhere fmter (whereStep fmter b first w) false rest

/-- Soft-delete predicate tail (`appendWhereSoftDelete`): `.field IS NULL`,
or `IS NOT NULL` with the only-deleted flag (the alias was appended by the
caller). -/
def whereBaseQuery.appendWhereSoftDelete (q : whereBaseQuery) (b : String) : String :=
  let sdf := (((q.tableModel.map TableModel.tbl).getD nilTable).SoftDeleteField).getD nilField
  let b1 := b ++ "." ++ sdf.SQLName
  if q.flags.deleted then b1 ++ " IS NOT NULL" else b1 ++ " IS NULL"

/-- Loop of `appendWherePKStruct` over the primary-key fields. -/
def pkStructAux (al : String) (fmter : Fmter) (isTemplate : Bool) (strct : String → Arg) :
    String → Bool → List Field → String
  | b, _, [] => b
  | b, first, f :: rest =>
    let b1 := if first then b else b ++ " AND "
    let b2 := b1 ++ al ++ "." ++ f.SQLName ++ " = "
    let b3 := if isTemplate then b2 ++ "?" else f.AppendValue fmter b2 strct
    pkStructAux al fmter isTemplate strct b3 false rest

/-- Single-entity primary-key predicate (`appendWherePKStruct`):
`(alias.pk1 = v1 AND alias.pk2 = v2 ...)`, placeholders in template mode. -/
def whereBaseQuery.appendWherePKStruct (q : whereBaseQuery) (fmter : Fmter) (b : String)
    (strct : String → Arg) : String :=
  let t := q.table.getD nilTable
  let isTemplate := sqlfmt.IsNopFormatter fmter
  pkStructAux t.Alias fmter isTemplate strct (b ++ "(") true t.PKs ++ ")"

/-- Inner loop of `appendWherePKSlice`: one collection element's PK values. -/
def pkRowAux (fmter : Fmter) (isTemplate : Bool) (el : String → Arg) :
    String → Bool → List Field → String
  | b, _, [] => b
  | b, first, f :: rest =>
    let b1 := if first then b else b ++ ", "
    let b2 := if isTemplate then b1 ++ "?" else f.AppendValue fmter b1 el
    pkRowAux fmter isTemplate el b2 false rest

/-- Outer loop of `appendWherePKSlice` over the collection; in template
mode the loop breaks before the second element. -/
def pkSliceAux (pks : List Field) (fmter : Fmter) (isTemplate : Bool) :
    String → Bool → List (String → Arg) → String
  | b, _, [] => b
  | b, first, el :: rest =>
    if !first && isTemplate then b
    else
      let b1 := if first then b else b ++ ", "
      let b2 := if pks.length > 1 then b1 ++ "(" else b1
      let b3 := pkRowAux fmter isTemplate el b2 true pks
      let b4 := if pks.length > 1 then b3 ++ ")" else b3
      pkSliceAux pks fmter isTemplate b4 false rest

/-- Collection primary-key predicate (`appendWherePKSlice`):
`pk IN (v1, v2, ...)` (PK tuple parenthesized when composite); template
mode renders only the first element. -/
def whereBaseQuery.appendWherePKSlice (q : whereBaseQuery) (fmter : Fmter) (b : String)
    (slice : List (String → Arg)) : String :=
  let t := q.table.getD nilTable
  let isTemplate := sqlfmt.IsNopFormatter fmter
  let b1 := if t.PKs.length > 1 then b ++ "(" else b
  let b2 := appendColumns b1 t.Alias t.PKs
  let b3 := if t.PKs.length > 1 then b2 ++ ")" else b2
  let b4 := b3 ++ " IN ("
  pkSliceAux t.PKs fmter isTemplate b4 true slice ++ ")"

/-- Primary-key predicate dispatch (`appendWherePK`): validates the PKs,
then renders by model kind; other kinds are an unsupported-operation
error naming the Go type (`%T` of a nil model prints `<nil>`). -/
def whereBaseQuery.appendWherePK (q : whereBaseQuery) (fmter : Fmter) (b : String) :
    Except String String :=
  match (q.table.getD nilTable).CheckPKs with
  | some e => .error e
  | none =>
    match q.tableModel with
    | some m =>
      match m.val with
      | .strct vals => .ok (q.appendWherePKStruct fmter b vals)
      | .slice elems => .ok (q.appendWherePKSlice fmter b elems)
      | .other typeName => .error ("bun: WherePK does not support " ++ typeName)
    | none => .error ("bun: WherePK does not support <nil>")

/-- General WHERE rendering (`appendWhere`): nothing at all when no source
produces output; otherwise ` WHERE ` followed by the predicate list, the
soft-delete predicate and the PK predicate, each ` AND `-joined only when
something was already emitted. -/
def whereBaseQuery.appendWhere (q : whereBaseQuery) (fmter : Fmter) (b : String) :
    Except String String :=
  if q.whereList.isEmpty && !q.tobaseQuery.isSoftDelete && !q.flags.wherePK then .ok b
  else
    let b1 := b ++ " WHERE "
    let startLen := b1.length
    let b2 := if !q.whereList.isEmpty then _appendWhere fmter b1 true q.whereList else b1
    let b3 :=
      if q.tobaseQuery.isSoftDelete then
        let b2a := if b2.length > startLen then b2 ++ " AND " else b2
        let b2b := b2a ++ ((q.tableModel.map TableModel.tbl).getD nilTable).Alias
        q.appendWhereSoftDelete b2b
      else b2
    if q.flags.wherePK then
      let b3a := if b3.length > startLen then b3 ++ " AND " else b3
      q.appendWherePK fmter b3a
    else .ok b3

/-- WHERE rendering for write statements (`mustAppendWhere`): requires a
predicate or the restrict-to-PK flag. -/
def whereBaseQuery.mustAppendWhere (q : whereBaseQuery) (fmter : Fmter) (b : String) :
    Except String String :=
  if q.whereList.isEmpty && !q.flags.wherePK then
    .error "bun: Update and Delete queries require Where clause (try WherePK)"
  else q.appendWhere fmter b

/-- RETURNING composer state (`returningQuery`). -/
structure returningQuery where
  returning : List QueryWithArgs
  returningFields : List Field
deriving DecidableEq, Repr

/-- Adds an explicit RETURNING fragment (`addReturning`). -/
def returningQuery.addReturning (q : returningQuery) (ret : QueryWithArgs) : returningQuery :=
  { q with returning := q.returning ++ [ret] }

/-- Adds a default RETURNING field (`addReturningField`): ignored once an
explicit fragment exists or when the field is already present. -/
def returningQuery.addReturningField (q : returningQuery) (field : Field) : returningQuery :=
  if q.returning.length > 0 then q
  else if q.returningFields.contains field then q
  else { q with returningFields := q.returningFields ++ [field] }

/-- RETURNING presence (`hasReturning`): a single fragment spelled exactly
`"null"` or `"NULL"` opts out entirely; otherwise either list being
nonempty counts. -/
def returningQuery.hasReturning (q : returningQuery) : Bool :=
  match q.returning with
  | [r] =>
    if r.Query = "null" ∨ r.Query = "NULL" then false
    else q.returning.length > 0 || q.returningFields.length > 0
  | _ => q.returning.length > 0 || q.returningFields.length > 0

/-- RETURNING rendering (`appendReturning`): nothing when `hasReturning` is
false; else ` RETURNING ` plus the explicit fragments, or the default field
list when no fragment was added. -/
def returningQuery.appendReturning (q : returningQuery) (fmter : Fmter) (b : String) : String :=
  if !q.hasReturning then b
  else
    let b1 := b ++ " RETURNING "
    let b2 := joinFragsAux fmter b1 true q.returning
    if q.returning.length > 0 then b2
    else appendColumns b2 "" q.returningFields

/-- CREATE INDEX statement state. The Go fields `using` and `include` are
spelled `usingQ` and `includeCols` because both words are Lean keywords. -/
structure CreateIndexQuery extends whereBaseQuery where
  unique : Bool
  fulltext : Bool
  spatial : Bool
  concurrently : Bool
  ifNotExists : Bool
  index : QueryWithArgs
  usingQ : QueryWithArgs
  includeCols : List QueryWithArgs

/-- Fresh CREATE INDEX builder (`NewCreateIndexQuery`; the `db`/`dbi`
wiring is execution-only and outside the model). -/
def NewCreateIndexQuery : CreateIndexQuery :=
  { tobaseQuery := emptyBaseQuery, whereList := [],
    unique := false, fulltext := false, spatial := false, concurrently := false,
    ifNotExists := false, index := { Query := "", Args := none },
    usingQ := { Query := "", Args := none }, includeCols := [] }

/-- Lifts a base-state mutation to the CREATE INDEX state. -/
def CreateIndexQuery.mapBase (q : CreateIndexQuery) (f : baseQuery → baseQuery) :
    CreateIndexQuery :=
  { q with tobaseQuery := f q.tobaseQuery }

/-- Lifts a WHERE-composer mutation to the CREATE INDEX state. -/
def CreateIndexQuery.mapWhere (q : CreateIndexQuery) (f : WhereQuery → WhereQuery) :
    CreateIndexQuery :=
  { q with toWhereQuery := f q.toWhereQuery }

/-- `Model` mutator (`setTableModel`). -/
def CreateIndexQuery.Model (q : CreateIndexQuery) (res : Except String TableModel) :
    CreateIndexQuery :=
  q.mapBase (baseQuery.setTableModel · res)

/-- `Unique` mutator. -/
def CreateIndexQuery.Unique (q : CreateIndexQuery) : CreateIndexQuery :=
  { q with unique := true }

/-- `Concurrently` mutator. -/
def CreateIndexQuery.Concurrently (q : CreateIndexQuery) : CreateIndexQuery :=
  { q with concurrently := true }

/-- `IfNotExists` mutator. -/
def CreateIndexQuery.IfNotExists (q : CreateIndexQuery) : CreateIndexQuery :=
  { q with ifNotExists := true }

/-- `Index` mutator. -/
def CreateIndexQuery.Index (q : CreateIndexQuery) (query : String) (args : Option (List Arg)) :
    CreateIndexQuery :=
  { q with index := sqlfmt.SafeQuery query args }

/-- `Table` mutator: each name becomes a raw-identifier table ref. -/
def CreateIndexQuery.Table (q : CreateIndexQuery) (tables : List String) : CreateIndexQuery :=
  q.mapBase fun base => tables.foldl (fun b t => b.addTable (sqlfmt.UnsafeIdent t)) base

/-- `TableExpr` mutator. -/
def CreateIndexQuery.TableExpr (q : CreateIndexQuery) (query : String)
    (args : Option (List Arg)) : CreateIndexQuery :=
  q.mapBase (baseQuery.addTable · (sqlfmt.SafeQuery query args))

/-- `ModelTableExpr` mutator. -/
def CreateIndexQuery.ModelTableExpr (q : CreateIndexQuery) (query : String)
    (args : Option (List Arg)) : CreateIndexQuery :=
  q.mapBase fun base => { base with modelTable := sqlfmt.SafeQuery query args }

/-- `Using` mutator. -/
def CreateIndexQuery.Using (q : CreateIndexQuery) (query : String) (args : Option (List Arg)) :
    CreateIndexQuery :=
  { q with usingQ := sqlfmt.SafeQuery query args }

/-- `Column` mutator: each name becomes a raw-identifier column ref. -/
def CreateIndexQuery.Column (q : CreateIndexQuery) (columns : List String) : CreateIndexQuery :=
  q.mapBase fun base => columns.foldl (fun b c => b.addColumn (sqlfmt.UnsafeIdent c)) base

/-- `ColumnExpr` mutator. -/
def CreateIndexQuery.ColumnExpr (q : CreateIndexQuery) (query : String)
    (args : Option (List Arg)) : CreateIndexQuery :=
  q.mapBase (baseQuery.addColumn · (sqlfmt.SafeQuery query args))

/-- `ExcludeColumn` mutator. -/
def CreateIndexQuery.ExcludeColumn (q : CreateIndexQuery) (columns : List String) :
    CreateIndexQuery :=
  q.mapBase (baseQuery.excludeColumn · columns)

/-- `Include` mutator. -/
def CreateIndexQuery.Include (q : CreateIndexQuery) (columns : List String) :
    CreateIndexQuery :=
  { q with includeCols := q.includeCols ++ columns.map sqlfmt.UnsafeIdent }

/-- `IncludeExpr` mutator. -/
def CreateIndexQuery.IncludeExpr (q : CreateIndexQuery) (query : String)
    (args : Option (List Arg)) : CreateIndexQuery :=
  { q with includeCols := q.includeCols ++ [sqlfmt.SafeQuery query args] }

/-- `Where` mutator. -/
def CreateIndexQuery.Where (q : CreateIndexQuery) (query : String)
    (args : Option (List Arg)) : CreateIndexQuery :=
  q.mapWhere (WhereQuery.Where · query args)

/-- `WhereOr` mutator. -/
def CreateIndexQuery.WhereOr (q : CreateIndexQuery) (query : String)
    (args : Option (List Arg)) : CreateIndexQuery :=
  q.mapWhere (WhereQuery.WhereOr · query args)

/-- `WhereGroup` mutator. -/
def CreateIndexQuery.WhereGroup (q : CreateIndexQuery) (sep : String)
    (fn : WhereQuery → WhereQuery) : CreateIndexQuery :=
  q.mapWhere (WhereQuery.addWhereGroup · sep fn)

/-- Statement rendering (`CreateIndexQuery.AppendQuery`): fails immediately
on the sticky error, then emits the fixed keywords interleaved with the
composer output. -/
def CreateIndexQuery.AppendQuery (q : CreateIndexQuery) (fmter : Fmter) (b : String) :
    Except String String :=
  match q.err with
  | some e => .error e
  | none =>
    let b1 := b ++ "CREATE "
    let b2 := if q.unique then b1 ++ "UNIQUE " else b1
    let b3 := if q.fulltext then b2 ++ "FULLTEXT " else b2
    let b4 := if q.spatial then b3 ++ "SPATIAL " else b3
    let b5 := b4 ++ "INDEX "
    let b6 := if q.concurrently then b5 ++ "CONCURRENTLY " else b5
    let b7 := if q.ifNotExists then b6 ++ "IF NOT EXISTS " else b6
    let b8 := q.index.AppendQuery fmter b7 ++ " ON "
    match q.tobaseQuery.appendFirstTable fmter b8 with
    | .error e => .error e
    | .ok b9 =>
      let b10 :=
        if !q.usingQ.IsZero then q.usingQ.AppendQuery fmter (b9 ++ " USING ") else b9
      let b11 := joinFragsAux fmter (b10 ++ " (") true (q.columns.getD []) ++ ")"
      let b12 :=
        if q.includeCols.length > 0 then
          joinFragsAux fmter (b11 ++ " INCLUDE (") true q.includeCols ++ ")"
        else b11
      q.towhereBaseQuery.appendWhere fmter b12

/-- One builder call on the CREATE INDEX statement state. The final two are
the base-state soft-delete mutators, which sibling statement kinds sharing
`baseQuery` expose; they are included so that invariants can be stated over
every sequence of builder calls that can touch the shared state. -/
inductive Op where
  | model (res : Except String TableModel)
  | unique
  | concurrently
  | ifNotExists
  | index (query : String) (args : Option (List Arg))
  | table (tables : List String)
  | tableExpr (query : String) (args : Option (List Arg))
  | modelTableExpr (query : String) (args : Option (List Arg))
  | usingOp (query : String) (args : Option (List Arg))
  | column (cols : List String)
  | columnExpr (query : String) (args : Option (List Arg))
  | excludeColumn (cols : List String)
  | includeOp (cols : List String)
  | includeExpr (query : String) (args : Option (List Arg))
  | whereOp (query : String) (args : Option (List Arg))
  | whereOr (query : String) (args : Option (List Arg))
  | whereGroup (sep : String) (fn : WhereQuery → WhereQuery)
  | deleted
  | allWithDeleted

/-- Applies one builder call. -/
def CreateIndexQuery.applyOp (q : CreateIndexQuery) : Op → CreateIndexQuery
  | .model res => q.Model res
  | .unique => q.Unique
  | .concurrently => q.Concurrently
  | .ifNotExists => q.IfNotExists
  | .index query args => q.Index query args
  | .table tables => q.Table tables
  | .tableExpr query args => q.TableExpr query args
  | .modelTableExpr query args => q.ModelTableExpr query args
  | .usingOp query args => q.Using query args
  | .column cols => q.Column cols
  | .columnExpr query args => q.ColumnExpr query args
  | .excludeColumn cols => q.ExcludeColumn cols
  | .includeOp cols => q.Include cols
  | .includeExpr query args => q.IncludeExpr query args
  | .whereOp query args => q.Where query args
  | .whereOr query args => q.WhereOr query args
  | .whereGroup sep fn => q.WhereGroup sep fn
  | .deleted => q.mapBase baseQuery.whereDeleted
  | .allWithDeleted => q.mapBase baseQuery.whereAllWithDeleted

/-- Applies a sequence of builder calls left to right. -/
def CreateIndexQuery.applyOps (q : CreateIndexQuery) : List Op → CreateIndexQuery
  | [] => q
  | op :: rest => (q.applyOp op).applyOps rest

/-! Concrete fixtures used by the claims. -/

def fieldId : Field := { Name := "id", SQLName := "id" }
def fieldTenant : Field := { Name := "tenant", SQLName := "tenant" }

def tableC4 : Table :=
  { SQLName := "users", Alias := "t", Fields := [fieldId, fieldTenant],
    PKs := [fieldId, fieldTenant], DataFields := [], SoftDeleteField := none }

def strctC4 : String → Arg := fun n => if n = "tenant" then Arg.str "acme" else Arg.int 5

def qC4 : whereBaseQuery :=
  { emptyBaseQuery with
    tableModel := some { tbl := tableC4, val := ModelValue.strct strctC4 },
    table := some tableC4,
    whereList := [] }

def tableC5 : Table :=
  { SQLName := "items", Alias := "", Fields := [fieldId], PKs := [fieldId],
    DataFields := [], SoftDeleteField := none }

def sliceC5 : List (String → Arg) :=
  [fun _ => Arg.int 1, fun _ => Arg.int 2, fun _ => Arg.int 3]

def qC5 : whereBaseQuery :=
  { emptyBaseQuery with
    tableModel := some { tbl := tableC5, val := ModelValue.slice sliceC5 },
    table := some tableC5,
    whereList := [] }

def fnC2 : WhereQuery → WhereQuery := fun w => (w.Where "a = 1" none).WhereOr "b = 2" none

def qC2 : WhereQuery := { whereList := [sqlfmt.SafeQueryWithSep "c = 3" none " AND "] }

def qErr : CreateIndexQuery :=
  { NewCreateIndexQuery with tobaseQuery := { emptyBaseQuery with err := some "boom" } }

def fieldDeletedAt : Field := { Name := "deleted_at", SQLName := "deleted_at" }

def tableSD : Table :=
  { SQLName := "docs", Alias := "d", Fields := [fieldId, fieldDeletedAt], PKs := [fieldId],
    DataFields := [], SoftDeleteField := some fieldDeletedAt }

def modelSD : TableModel := { tbl := tableSD, val := ModelValue.strct fun _ => Arg.int 7 }

def qSD : baseQuery :=
  { emptyBaseQuery with table := some tableSD, tableModel := some modelSD }

def qNoSD : baseQuery :=
  { emptyBaseQuery with
    table := some tableC4,
    tableModel := some { tbl := tableC4, val := ModelValue.strct strctC4 } }

def qRetNull : returningQuery :=
  (returningQuery.addReturningField { returning := [], returningFields := [] }
    fieldId).addReturning (sqlfmt.SafeQuery "null" none)

def qCols : baseQuery :=
  { emptyBaseQuery with table := some tableC4 }

def qC10 : whereBaseQuery :=
  { emptyBaseQuery with table := some tableSD, tableModel := some modelSD, whereList := [] }

def qC10all : whereBaseQuery :=
  { qC10 with flags := { wherePK := false, deleted := false, allWithDeleted := true } }

def qC6wpk : whereBaseQuery :=
  { emptyBaseQuery with
    table := some tableSD,
    tableModel := some modelSD,
    flags := { wherePK := true, deleted := false, allWithDeleted := false },
    whereList := [] }

def qW : whereBaseQuery := { tobaseQuery := emptyBaseQuery, whereList := [] }

def qC4pk : whereBaseQuery :=
  { qC4 with flags := { wherePK := true, deleted := false, allWithDeleted := false } }

/-- C4: the primary-key predicate of a single-entity model with two-column
PK `(id, tenant)` bound to `(5, "acme")` and alias `t` renders as
`(t.id = 5 AND t.tenant = 'acme')` with a literal formatter and as
`(t.id = ? AND t.tenant = ?)` with the template (nop) formatter. -/
theorem C4 :
    qC4.appendWherePK Fmter.lit "" = .ok "(t.id = 5 AND t.tenant = 'acme')"
  ∧ qC4.appendWherePK Fmter.nop "" = .ok "(t.id = ? AND t.tenant = ?)" :=
  ⟨rfl, rfl⟩

/-- C5: the primary-key predicate of a three-element collection model with
single-column PK `id` bound to `[1,2,3]` renders as `id IN (1, 2, 3)` with
a literal formatter and as `id IN (?)` with the template (nop) formatter
(only the first element is shown in template mode). -/
theorem C5 :
    qC5.appendWherePK Fmter.lit "" = .ok "id IN (1, 2, 3)"
  ∧ qC5.appendWherePK Fmter.nop "" = .ok "id IN (?)" :=
  ⟨rfl, rfl⟩

/-! Helper lemmas about the predicate-list renderer. -/

theorem whereStep_acc (fmter : Fmter) (w : QueryWithSep) (b : String) (first : Bool) :
    whereStep fmter b first w = b ++ whereStep fmter "" first w := by
  by_cases hp : w.Query = "" ∧ w.Args = none <;>
    cases fmter <;> cases first <;>
      simp [whereStep, hp, QueryWithArgs.AppendQuery, String.append_assoc,
        String.empty_append, String.append_empty]

theorem _appendWhere_acc (fmter : Fmter) (l : List QueryWithSep) :
    ∀ (b : String) (first : Bool),
      _appendWhere fmter b first l = b ++ _appendWhere fmter "" first l := by
  induction l with
  | nil => intro b first; simp [_appendWhere, String.append_empty]
  | cons w rest ih =>
    intro b first
    simp only [_appendWhere]
    rw [ih (whereStep fmter b first w) false, ih (whereStep fmter "" first w) false,
      whereStep_acc, String.append_assoc]

theorem _appendWhere_append (fmter : Fmter) (l1 l2 : List QueryWithSep) :
    ∀ b, _appendWhere fmter b false (l1 ++ l2)
      = _appendWhere fmter (_appendWhere fmter b false l1) false l2 := by
  induction l1 with
  | nil => intro b; simp [_appendWhere]
  | cons w rest ih => intro b; simp only [List.cons_append, _appendWhere]; exact ih _

theorem whereStep_clearSep (fmter : Fmter) (w : QueryWithSep) (b : String) :
    whereStep fmter b false { w with Sep := "" } = whereStep fmter b true w := by
  by_cases hp : w.Query = "" ∧ w.Args = none <;>
    cases fmter <;>
      simp [whereStep, hp, QueryWithArgs.AppendQuery, String.append_empty]

/-- Rendering a spliced group: outer list, `sep+"("` marker, inner list with
its first separator cleared, `")"` marker. -/
theorem _appendWhere_group (fmter : Fmter) (L : List QueryWithSep) (hL : L ≠ [])
    (sep : String) (w0 : QueryWithSep) (rest : List QueryWithSep) (b : String) :
    _appendWhere fmter b true
        (L ++ [sqlfmt.SafeQueryWithSep "" none (sep ++ "(")] ++
          ({ w0 with Sep := "" } :: rest) ++ [sqlfmt.SafeQueryWithSep "" none ")"])
      = _appendWhere fmter b true L ++ (sep ++ "(") ++
          _appendWhere fmter "" true (w0 :: rest) ++ ")" := by
  obtain ⟨v0, vrest, rfl⟩ : ∃ v0 vrest, L = v0 :: vrest := by
    cases L with
    | nil => exact absurd rfl hL
    | cons a l => exact ⟨a, l, rfl⟩
  have hsingle : ∀ (x : String) (w : QueryWithSep),
      _appendWhere fmter x false [w] = whereStep fmter x false w := by
    intro x w; simp [_appendWhere]
  have hopen : ∀ (x : String),
      whereStep fmter x false (sqlfmt.SafeQueryWithSep "" none (sep ++ "(")) =
        x ++ (sep ++ "(") := by
    intro x; simp [whereStep, sqlfmt.SafeQueryWithSep]
  have hclose : ∀ (x : String),
      whereStep fmter x false (sqlfmt.SafeQueryWithSep "" none ")") = x ++ ")" := by
    intro x; simp [whereStep, sqlfmt.SafeQueryWithSep]
  have hflat : (v0 :: vrest) ++ [sqlfmt.SafeQueryWithSep "" none (sep ++ "(")] ++
        ({ w0 with Sep := "" } :: rest) ++ [sqlfmt.SafeQueryWithSep "" none ")"]
      = v0 :: (((vrest ++ [sqlfmt.SafeQueryWithSep "" none (sep ++ "(")]) ++
          ({ w0 with Sep := "" } :: rest)) ++ [sqlfmt.SafeQueryWithSep "" none ")"]) := by
    simp
  rw [hflat]
  simp only [_appendWhere]
  rw [_appendWhere_append fmter ((vrest ++ [sqlfmt.SafeQueryWithSep "" none (sep ++ "(")]) ++
      ({ w0 with Sep := "" } :: rest)) [sqlfmt.SafeQueryWithSep "" none ")"],
    _appendWhere_append fmter (vrest ++ [sqlfmt.SafeQueryWithSep "" none (sep ++ "(")])
      ({ w0 with Sep := "" } :: rest),
    _appendWhere_append fmter vrest [sqlfmt.SafeQueryWithSep "" none (sep ++ "(")]]
  simp only [hsingle]
  simp only [hopen, hclose]
  have hinner : ∀ (x : String),
      _appendWhere fmter x false ({ w0 with Sep := "" } :: rest)
        = x ++ _appendWhere fmter (whereStep fmter "" true w0) false rest := by
    intro x
    simp only [_appendWhere, whereStep_clearSep]
    have := _appendWhere_acc fmter (w0 :: rest) x true
    simpa [_appendWhere] using this
  rw [hinner]

/-- C2: `addWhereGroup(sep, fn)` with an `fn` adding no predicates leaves the
outer list unchanged; with a nonempty inner list, rendering the extended
outer list (outer list itself nonempty) emits the rendered outer list, then
`sep` and `(`, then the inner predicates rendered with their own separators
and the first inner separator suppressed, then `)`. -/
theorem C2 (q : WhereQuery) (sep : String) (fn : WhereQuery → WhereQuery)
    (fmter : Fmter) (b : String) :
    ((fn { whereList := [] }).whereList = [] → q.addWhereGroup sep fn = q)
  ∧ ((fn { whereList := [] }).whereList ≠ [] → q.whereList ≠ [] →
      _appendWhere fmter b true (q.addWhereGroup sep fn).whereList
        = _appendWhere fmter b true q.whereList ++ (sep ++ "(") ++
            _appendWhere fmter "" true (fn { whereList := [] }).whereList ++ ")") := by
  constructor
  · intro h
    simp [WhereQuery.addWhereGroup, h]
  · intro hne hq
    obtain ⟨w0, rest, hw⟩ : ∃ w0 rest, (fn { whereList := [] }).whereList = w0 :: rest := by
      cases h : (fn { whereList := [] }).whereList with
      | nil => exact absurd h hne
      | cons a l => exact ⟨a, l, rfl⟩
    have hgrp : (q.addWhereGroup sep fn).whereList
        = q.whereList ++ [sqlfmt.SafeQueryWithSep "" none (sep ++ "(")] ++
            ({ w0 with Sep := "" } :: rest) ++ [sqlfmt.SafeQueryWithSep "" none ")"] := by
      simp [WhereQuery.addWhereGroup, hw]
    rw [hgrp, hw]
    exact _appendWhere_group fmter q.whereList hq sep w0 rest b

/-- C2 counterexample: on an EMPTY outer list the group's leading
`sep ++ "("` punctuation marker sits at the head of the spliced list, so —
like any first element's separator — it is never emitted: the group does
not render as `sep` followed by `(`…`)` (the trailing `)` marker is left
unbalanced). -/
theorem C2_counterexample :
    _appendWhere Fmter.nop "" true
        ((WhereQuery.addWhereGroup { whereList := [] } " OR " fnC2).whereList)
      = "(a = 1) OR (b = 2))"
  ∧ (" OR " ++ "(" ++
        _appendWhere Fmter.nop "" true (fnC2 { whereList := [] }).whereList ++ ")"
      = " OR ((a = 1) OR (b = 2))")
  ∧ ("(a = 1) OR (b = 2))" ≠ " OR ((a = 1) OR (b = 2))") :=
  ⟨rfl, rfl, by decide⟩

theorem C2_witness :
    (qC2.addWhereGroup " OR " (fun w => w) = qC2)
  ∧ (_appendWhere Fmter.nop "" true ((qC2.addWhereGroup " OR " fnC2).whereList)
      = _appendWhere Fmter.nop "" true qC2.whereList ++ (" OR " ++ "(") ++
          _appendWhere Fmter.nop "" true (fnC2 { whereList := [] }).whereList ++ ")") :=
  ⟨(C2 qC2 " OR " (fun w => w) Fmter.nop "").1 rfl,
    (C2 qC2 " OR " fnC2 Fmter.nop "").2 (by decide) (by decide)⟩

/-! Helper lemmas: preservation of the sticky error and of the soft-delete
flags across builder calls. -/

theorem setErr_keep (q : baseQuery) (e e2 : String) (h : q.err = some e) :
    (q.setErr e2).err = some e := by
  simp [baseQuery.setErr, h]

theorem setErr_flags (q : baseQuery) (e2 : String) : (q.setErr e2).flags = q.flags := by
  unfold baseQuery.setErr; split <;> rfl

theorem setErr_table (q : baseQuery) (e2 : String) : (q.setErr e2).table = q.table := by
  unfold baseQuery.setErr; split <;> rfl

theorem excludeColumnLoop_keep (e : String) :
    ∀ (cs : List String) (q : baseQuery), q.err = some e →
      (baseQuery.excludeColumnLoop q cs).err = some e := by
  intro cs
  induction cs with
  | nil => intro q h; simpa [baseQuery.excludeColumnLoop] using h
  | cons c rest ih =>
    intro q h
    simp only [baseQuery.excludeColumnLoop]
    cases hrc : removeFirstColumn c (q.columns.getD []) with
    | none => simp only [hrc]; exact setErr_keep q e _ h
    | some cs2 => simp only [hrc]; exact ih _ (by simpa using h)

theorem excludeColumnLoop_flags :
    ∀ (cs : List String) (q : baseQuery),
      (baseQuery.excludeColumnLoop q cs).flags = q.flags := by
  intro cs
  induction cs with
  | nil => intro q; simp [baseQuery.excludeColumnLoop]
  | cons c rest ih =>
    intro q
    simp only [baseQuery.excludeColumnLoop]
    cases hrc : removeFirstColumn c (q.columns.getD []) with
    | none => simp only [hrc]; exact setErr_flags q _
    | some cs2 => simp only [hrc]; exact ih _

theorem foldl_addTable_err (ts : List String) :
    ∀ (base : baseQuery),
      (ts.foldl (fun b t => b.addTable (sqlfmt.UnsafeIdent t)) base).err = base.err := by
  induction ts with
  | nil => intro base; rfl
  | cons t rest ih => intro base; simp only [List.foldl]; rw [ih]; rfl

theorem foldl_addTable_flags (ts : List String) :
    ∀ (base : baseQuery),
      (ts.foldl (fun b t => b.addTable (sqlfmt.UnsafeIdent t)) base).flags = base.flags := by
  induction ts with
  | nil => intro base; rfl
  | cons t rest ih => intro base; simp only [List.foldl]; rw [ih]; rfl

theorem foldl_addColumn_err (cs : List String) :
    ∀ (base : baseQuery),
      (cs.foldl (fun b c => b.addColumn (sqlfmt.UnsafeIdent c)) base).err = base.err := by
  induction cs with
  | nil => intro base; rfl
  | cons c rest ih => intro base; simp only [List.foldl]; rw [ih]; rfl

theorem foldl_addColumn_flags (cs : List String) :
    ∀ (base : baseQuery),
      (cs.foldl (fun b c => b.addColumn (sqlfmt.UnsafeIdent c)) base).flags = base.flags := by
  induction cs with
  | nil => intro base; rfl
  | cons c rest ih => intro base; simp only [List.foldl]; rw [ih]; rfl

theorem applyOp_err_keep (q : CreateIndexQuery) (op : Op) (e : String) (h : q.err = some e) :
    (q.applyOp op).err = some e := by
  cases op with
  | model res =>
    cases res with
    | error e2 =>
      simp only [CreateIndexQuery.applyOp, CreateIndexQuery.Model, CreateIndexQuery.mapBase,
        baseQuery.setTableModel]
      exact setErr_keep _ e e2 h
    | ok m =>
      simp only [CreateIndexQuery.applyOp, CreateIndexQuery.Model, CreateIndexQuery.mapBase,
        baseQuery.setTableModel]
      exact h
  | table ts =>
    simp only [CreateIndexQuery.applyOp, CreateIndexQuery.Table, CreateIndexQuery.mapBase]
    rw [foldl_addTable_err]; exact h
  | column cs =>
    simp only [CreateIndexQuery.applyOp, CreateIndexQuery.Column, CreateIndexQuery.mapBase]
    rw [foldl_addColumn_err]; exact h
  | excludeColumn cs =>
    simp only [CreateIndexQuery.applyOp, CreateIndexQuery.ExcludeColumn,
      CreateIndexQuery.mapBase, baseQuery.excludeColumn]
    split <;> exact excludeColumnLoop_keep e cs _ (by simpa using h)
  | deleted =>
    simp only [CreateIndexQuery.applyOp, CreateIndexQuery.mapBase, baseQuery.whereDeleted]
    cases hcs : q.tobaseQuery.checkSoftDelete with
    | some e2 => simp only [hcs]; exact setErr_keep _ e e2 h
    | none => simp only [hcs]; exact h
  | allWithDeleted =>
    simp only [CreateIndexQuery.applyOp, CreateIndexQuery.mapBase,
      baseQuery.whereAllWithDeleted]
    cases hcs : q.tobaseQuery.checkSoftDelete with
    | some e2 => simp only [hcs]; exact setErr_keep _ e e2 h
    | none => simp only [hcs]; exact h
  | unique => exact h
  | concurrently => exact h
  | ifNotExists => exact h
  | index query args => exact h
  | tableExpr query args => exact h
  | modelTableExpr query args => exact h
  | usingOp query args => exact h
  | columnExpr query args => exact h
  | includeOp cols => exact h
  | includeExpr query args => exact h
  | whereOp query args => exact h
  | whereOr query args => exact h
  | whereGroup sep fn => exact h

theorem applyOps_err_keep (ops : List Op) :
    ∀ (q : CreateIndexQuery) (e : String), q.err = some e →
      (q.applyOps ops).err = some e := by
  induction ops with
  | nil => intro q e h; exact h
  | cons op rest ih =>
    intro q e h
    exact ih _ e (applyOp_err_keep q op e h)

/-- C1: the sticky error is never overwritten — not by a direct `setErr`
call nor by any sequence of mutator calls — and `AppendQuery` on a state
with a recorded error returns exactly that first error, appending nothing. -/
theorem C1 (q : CreateIndexQuery) (ops : List Op) (e : String) (fmter : Fmter) (b : String)
    (h : q.err = some e) :
    (∀ e2, (q.tobaseQuery.setErr e2).err = some e)
  ∧ (q.applyOps ops).err = some e
  ∧ (q.applyOps ops).AppendQuery fmter b = .error e := by
  have h2 : (q.applyOps ops).err = some e := applyOps_err_keep ops q e h
  refine ⟨fun e2 => setErr_keep _ e e2 h, h2, ?_⟩
  simp [CreateIndexQuery.AppendQuery, h2]

theorem C1_witness :
    ((qErr.tobaseQuery.setErr "later").err = some "boom")
  ∧ (qErr.applyOps [Op.unique, Op.whereOp "a = 1" none, Op.excludeColumn ["id"]]).err
      = some "boom"
  ∧ (qErr.applyOps [Op.unique, Op.whereOp "a = 1" none, Op.excludeColumn ["id"]]).AppendQuery
      Fmter.nop "" = .error "boom" := by
  have h := C1 qErr [Op.unique, Op.whereOp "a = 1" none, Op.excludeColumn ["id"]] "boom"
    Fmter.nop "" rfl
  exact ⟨h.1 "later", h.2.1, h.2.2⟩

theorem applyOp_flagsInv (q : CreateIndexQuery) (op : Op)
    (h : ¬(q.flags.deleted = true ∧ q.flags.allWithDeleted = true)) :
    ¬((q.applyOp op).flags.deleted = true ∧ (q.applyOp op).flags.allWithDeleted = true) := by
  cases op with
  | model res =>
    cases res with
    | error e2 =>
      simp only [CreateIndexQuery.applyOp, CreateIndexQuery.Model, CreateIndexQuery.mapBase,
        baseQuery.setTableModel]
      rw [setErr_flags]; exact h
    | ok m =>
      simp only [CreateIndexQuery.applyOp, CreateIndexQuery.Model, CreateIndexQuery.mapBase,
        baseQuery.setTableModel]
      exact h
  | table ts =>
    simp only [CreateIndexQuery.applyOp, CreateIndexQuery.Table, CreateIndexQuery.mapBase]
    rw [foldl_addTable_flags]; exact h
  | column cs =>
    simp only [CreateIndexQuery.applyOp, CreateIndexQuery.Column, CreateIndexQuery.mapBase]
    rw [foldl_addColumn_flags]; exact h
  | excludeColumn cs =>
    simp only [CreateIndexQuery.applyOp, CreateIndexQuery.ExcludeColumn,
      CreateIndexQuery.mapBase, baseQuery.excludeColumn]
    split <;> (rw [excludeColumnLoop_flags]; exact h)
  | deleted =>
    simp only [CreateIndexQuery.applyOp, CreateIndexQuery.mapBase, baseQuery.whereDeleted]
    cases hcs : q.tobaseQuery.checkSoftDelete with
    | some e2 => simp only [hcs]; rw [setErr_flags]; exact h
    | none => simp only [hcs]; intro hc; exact absurd hc.2 (by simp)
  | allWithDeleted =>
    simp only [CreateIndexQuery.applyOp, CreateIndexQuery.mapBase,
      baseQuery.whereAllWithDeleted]
    cases hcs : q.tobaseQuery.checkSoftDelete with
    | some e2 => simp only [hcs]; rw [setErr_flags]; exact h
    | none => simp only [hcs]; intro hc; exact absurd hc.1 (by simp)
  | unique => exact h
  | concurrently => exact h
  | ifNotExists => exact h
  | index query args => exact h
  | tableExpr query args => exact h
  | modelTableExpr query args => exact h
  | usingOp query args => exact h
  | columnExpr query args => exact h
  | includeOp cols => exact h
  | includeExpr query args => exact h
  | whereOp query args => exact h
  | whereOr query args => exact h
  | whereGroup sep fn => exact h

theorem applyOps_flagsInv (ops : List Op) :
    ∀ (q : CreateIndexQuery),
      ¬(q.flags.deleted = true ∧ q.flags.allWithDeleted = true) →
      ¬((q.applyOps ops).flags.deleted = true ∧
        (q.applyOps ops).flags.allWithDeleted = true) := by
  induction ops with
  | nil => intro q h; exact h
  | cons op rest ih => intro q h; exact ih _ (applyOp_flagsInv q op h)

/-- C8: on a state with a soft-delete table and bound model,
`whereDeleted` then `whereAllWithDeleted` leaves only the include-all flag
set; the two flags are never both set after any sequence of builder calls;
and on a table lacking a soft-delete field either call records a sticky
descriptive error and leaves the flags unchanged. -/
theorem C8 (q : baseQuery) (t : Table) :
    (q.table = some t → (∃ f, t.SoftDeleteField = some f) → q.tableModel.isSome →
      (q.whereDeleted.whereAllWithDeleted).flags.allWithDeleted = true ∧
        (q.whereDeleted.whereAllWithDeleted).flags.deleted = false)
  ∧ (∀ (q0 : CreateIndexQuery) (ops : List Op),
      ¬(q0.flags.deleted = true ∧ q0.flags.allWithDeleted = true) →
      ¬((q0.applyOps ops).flags.deleted = true ∧
        (q0.applyOps ops).flags.allWithDeleted = true))
  ∧ (q.table = some t → t.SoftDeleteField = none →
      (q.whereDeleted.flags = q.flags ∧
        q.whereDeleted.err =
          some (q.err.getD (t.SQLName ++ " does not have a soft delete field"))) ∧
      (q.whereAllWithDeleted.flags = q.flags ∧
        q.whereAllWithDeleted.err =
          some (q.err.getD (t.SQLName ++ " does not have a soft delete field")))) := by
  refine ⟨?_, fun q0 ops h => applyOps_flagsInv ops q0 h, ?_⟩
  · rintro ht ⟨f, hf⟩ hm
    obtain ⟨m, hm2⟩ := Option.isSome_iff_exists.mp hm
    have hcs : q.checkSoftDelete = none := by
      simp [baseQuery.checkSoftDelete, ht, hf, hm2]
    simp only [baseQuery.whereDeleted, hcs]
    have hcs2 : ({ q with flags :=
        { q.flags with deleted := true, allWithDeleted := false } } : baseQuery).checkSoftDelete
          = none := by
      simp [baseQuery.checkSoftDelete, ht, hf, hm2]
    simp [baseQuery.whereAllWithDeleted, hcs2]
  · intro ht hsd
    have hmsg : q.checkSoftDelete
        = some (t.SQLName ++ " does not have a soft delete field") := by
      simp [baseQuery.checkSoftDelete, ht, hsd]
    have herr : (q.setErr (t.SQLName ++ " does not have a soft delete field")).err
        = some (q.err.getD (t.SQLName ++ " does not have a soft delete field")) := by
      cases hqe : q.err <;> simp [baseQuery.setErr, hqe]
    refine ⟨?_, ?_⟩ <;>
      simp only [baseQuery.whereDeleted, baseQuery.whereAllWithDeleted, hmsg] <;>
        exact ⟨setErr_flags q _, herr⟩

theorem C8_witness :
    ((qSD.whereDeleted.whereAllWithDeleted).flags.allWithDeleted = true ∧
      (qSD.whereDeleted.whereAllWithDeleted).flags.deleted = false)
  ∧ ¬((NewCreateIndexQuery.applyOps [Op.deleted, Op.allWithDeleted]).flags.deleted = true ∧
      (NewCreateIndexQuery.applyOps [Op.deleted, Op.allWithDeleted]).flags.allWithDeleted
        = true)
  ∧ (qNoSD.whereDeleted.flags = qNoSD.flags ∧
      qNoSD.whereDeleted.err = some "users does not have a soft delete field") := by
  have h1 := (C8 qSD tableSD).1 rfl ⟨fieldDeletedAt, rfl⟩ rfl
  have h2 := (C8 qSD tableSD).2.1 NewCreateIndexQuery [Op.deleted, Op.allWithDeleted]
    (by intro hc; exact absurd hc.1 (by decide))
  have h3 := ((C8 qNoSD tableC4).2.2 rfl rfl).1
  exact ⟨h1, h2, h3⟩

/-- C3 counterexample: the fragment text `"Null"` equals `"null"` under
case-insensitive comparison, yet `hasReturning` stays true and
`appendReturning` still emits a RETURNING clause — only the exact
spellings `"null"` and `"NULL"` disable RETURNING. -/
theorem C3_counterexample :
    ("Null".data.map Char.toLower = "null".data.map Char.toLower)
  ∧ returningQuery.hasReturning
      { returning := [sqlfmt.SafeQuery "Null" none], returningFields := [] } = true
  ∧ returningQuery.appendReturning
      { returning := [sqlfmt.SafeQuery "Null" none], returningFields := [] } Fmter.nop ""
      = " RETURNING Null" :=
  ⟨by decide, rfl, rfl⟩

/-- C3 (amended): when exactly one returning fragment was added and its
text is exactly `"null"` or `"NULL"`, `hasReturning` returns false and
`appendReturning` appends nothing, even if `addReturningField` was called
beforehand (the returning-field list is unconstrained here). -/
theorem C3 (q : returningQuery) (r : QueryWithArgs) (fmter : Fmter) (b : String)
    (h1 : q.returning = [r]) (h2 : r.Query = "null" ∨ r.Query = "NULL") :
    q.hasReturning = false ∧ q.appendReturning fmter b = b := by
  have hr : q.hasReturning = false := by
    cases h2 with
    | inl h => simp [returningQuery.hasReturning, h1, h]
    | inr h => simp [returningQuery.hasReturning, h1, h]
  exact ⟨hr, by simp [returningQuery.appendReturning, hr]⟩

theorem C3_witness :
    qRetNull.returningFields = [fieldId]
  ∧ (qRetNull.hasReturning = false ∧ qRetNull.appendReturning Fmter.lit "abc" = "abc") :=
  ⟨rfl, C3 qRetNull (sqlfmt.SafeQuery "null" none) Fmter.lit "abc" rfl (Or.inl rfl)⟩

/-! Helper lemmas for column exclusion. -/

theorem setErr_columns (q : baseQuery) (e2 : String) : (q.setErr e2).columns = q.columns := by
  unfold baseQuery.setErr; split <;> rfl

theorem removeFirstColumn_found (name : String) :
    ∀ (pre : List QueryWithArgs) (c : QueryWithArgs) (post : List QueryWithArgs),
      c.Args = none → c.Query = name →
      (∀ c2 ∈ pre, ¬(c2.Args = none ∧ c2.Query = name)) →
      removeFirstColumn name (pre ++ c :: post) = some (pre ++ post) := by
  intro pre
  induction pre with
  | nil =>
    intro c post hargs hq _
    simp [removeFirstColumn, hargs, hq]
  | cons p rest ih =>
    intro c post hargs hq hpre
    have hp : ¬(p.Args = none ∧ p.Query = name) := hpre p (by simp)
    simp only [List.cons_append, removeFirstColumn, List.append_eq]
    rw [if_neg hp, ih c post hargs hq (fun c2 hc2 => hpre c2 (by simp [hc2]))]
    simp

theorem removeFirstColumn_notFound (name : String) :
    ∀ (l : List QueryWithArgs),
      (∀ c2 ∈ l, ¬(c2.Args = none ∧ c2.Query = name)) →
      removeFirstColumn name l = none := by
  intro l
  induction l with
  | nil => intro _; rfl
  | cons c rest ih =>
    intro h
    simp only [removeFirstColumn]
    rw [if_neg (h c (by simp)), ih (fun c2 hc2 => h c2 (by simp [hc2]))]
    rfl

/-- C7: with a bound table, excluding a name that occurs as a
raw-identifier fragment in the (possibly auto-materialized) column list
removes exactly the first matching entry, preserving the rest in order;
excluding an absent name records the sticky can't-find-column error and
leaves the column list as materialized. -/
theorem C7 (q : baseQuery) (t : Table) (name : String) (ht : q.table = some t) :
    (∀ pre c post,
        q.columns.getD (t.Fields.map fun f => sqlfmt.UnsafeIdent f.Name)
            = pre ++ c :: post →
        c.Args = none → c.Query = name →
        (∀ c2 ∈ pre, ¬(c2.Args = none ∧ c2.Query = name)) →
        (q.excludeColumn [name]).columns = some (pre ++ post) ∧
          (q.excludeColumn [name]).err = q.err)
  ∧ ((∀ c2 ∈ q.columns.getD (t.Fields.map fun f => sqlfmt.UnsafeIdent f.Name),
        ¬(c2.Args = none ∧ c2.Query = name)) →
      (q.excludeColumn [name]).columns
          = some (q.columns.getD (t.Fields.map fun f => sqlfmt.UnsafeIdent f.Name)) ∧
        (q.excludeColumn [name]).err
          = some (q.err.getD ("bun: can't find column=\"" ++ name ++ "\""))) := by
  have hq1 : ∃ q1 : baseQuery,
      baseQuery.excludeColumn q [name] = baseQuery.excludeColumnLoop q1 [name] ∧
      q1.columns = some (q.columns.getD (t.Fields.map fun f => sqlfmt.UnsafeIdent f.Name)) ∧
      q1.err = q.err := by
    cases hqc : q.columns with
    | none =>
      refine ⟨{ q with columns := some (t.Fields.map fun f => sqlfmt.UnsafeIdent f.Name) },
        ?_, by simp [hqc], rfl⟩
      simp [baseQuery.excludeColumn, ht, hqc]
    | some cs =>
      refine ⟨q, ?_, by simp [hqc], rfl⟩
      simp [baseQuery.excludeColumn, ht, hqc]
  obtain ⟨q1, hexq, hq1c, hq1e⟩ := hq1
  constructor
  · intro pre c post hsplit hargs hqname hpre
    have hrc : removeFirstColumn name (q1.columns.getD []) = some (pre ++ post) := by
      rw [hq1c]
      simp only [Option.getD_some]
      rw [hsplit]
      exact removeFirstColumn_found name pre c post hargs hqname hpre
    rw [hexq]
    simp [baseQuery.excludeColumnLoop, hrc, hq1e]
  · intro hnone
    have hrc : removeFirstColumn name (q1.columns.getD []) = none := by
      rw [hq1c]
      simp only [Option.getD_some]
      exact removeFirstColumn_notFound name _ hnone
    rw [hexq]
    simp only [baseQuery.excludeColumnLoop, hrc]
    constructor
    · rw [setErr_columns, hq1c]
    · rw [← hq1e]
      cases hqe : q1.err <;> simp [baseQuery.setErr, hqe]

theorem C7_witness :
    ((qCols.excludeColumn ["tenant"]).columns = some [sqlfmt.UnsafeIdent "id"] ∧
      (qCols.excludeColumn ["tenant"]).err = none)
  ∧ ((qCols.excludeColumn ["nope"]).columns
        = some [sqlfmt.UnsafeIdent "id", sqlfmt.UnsafeIdent "tenant"] ∧
      (qCols.excludeColumn ["nope"]).err = some "bun: can't find column=\"nope\"") := by
  have h1 := (C7 qCols tableC4 "tenant" rfl).1 [sqlfmt.UnsafeIdent "id"]
    (sqlfmt.UnsafeIdent "tenant") [] (by decide) rfl rfl (by decide)
  have h2 := (C7 qCols tableC4 "nope" rfl).2 (by decide)
  exact ⟨h1, h2⟩

/-- C9: named-argument substitution declines (buffer unchanged, no error)
when no table is bound or the name is outside the six supported
placeholders; with a bound table each of the six resolves to `true` with
its rendering appended. -/
theorem C9 (q : baseQuery) (fmter : Fmter) (b : String) (name : String) :
    (q.table = none → q.AppendArg fmter b name = (b, false))
  ∧ (name ∉ ["TableName", "TableAlias", "PKs", "TablePKs", "Columns", "TableColumns"] →
      q.AppendArg fmter b name = (b, false))
  ∧ (∀ t, q.table = some t →
      q.AppendArg fmter b "TableName" = (fmter.FormatQuery b t.SQLName, true) ∧
      q.AppendArg fmter b "TableAlias" = (fmter.FormatQuery b t.Alias, true) ∧
      q.AppendArg fmter b "PKs" = (appendColumns b "" t.PKs, true) ∧
      q.AppendArg fmter b "TablePKs" = (appendColumns b t.Alias t.PKs, true) ∧
      q.AppendArg fmter b "Columns" = (appendColumns b "" t.Fields, true) ∧
      q.AppendArg fmter b "TableColumns" = (appendColumns b t.Alias t.Fields, true)) := by
  refine ⟨fun h => by simp [baseQuery.AppendArg, h], ?_, ?_⟩
  · intro hmem
    simp only [List.mem_cons, List.not_mem_nil, or_false, not_or] at hmem
    obtain ⟨h1, h2, h3, h4, h5, h6⟩ := hmem
    cases hqt : q.table with
    | none => simp [baseQuery.AppendArg, hqt]
    | some t => simp [baseQuery.AppendArg, hqt, h1, h2, h3, h4, h5, h6]
  · intro t ht
    refine ⟨?_, ?_, ?_, ?_, ?_, ?_⟩ <;> simp [baseQuery.AppendArg, ht]

theorem C9_witness :
    (emptyBaseQuery.AppendArg Fmter.lit "X" "TableName" = ("X", false))
  ∧ (qCols.AppendArg Fmter.lit "X" "SomethingElse" = ("X", false))
  ∧ (qCols.AppendArg Fmter.lit "X" "TablePKs" = ("Xt.id, t.tenant", true)) := by
  have h1 := (C9 emptyBaseQuery Fmter.lit "X" "TableName").1 rfl
  have h2 := (C9 qCols Fmter.lit "X" "SomethingElse").2.1 (by decide)
  have h3 := ((C9 qCols Fmter.lit "X" "TablePKs").2.2 tableC4 rfl).2.2.2.1
  exact ⟨h1, h2, h3⟩

/-- C10: with a bound table model whose table has a soft-delete field,
`appendWhere` emits the soft-delete predicate by default — `IS NULL`, or
`IS NOT NULL` under the only-deleted flag — even when no filter call was
ever made; only the include-all flag disables it. (Stated for a state with
no explicit predicates and no PK flag, so the WHERE clause is exactly the
soft-delete predicate.) -/
theorem C10 (q : whereBaseQuery) (t : Table) (f : Field) (m : TableModel) (fmter : Fmter)
    (b : String)
    (ht : q.table = some t) (hf : t.SoftDeleteField = some f)
    (hm : q.tableModel = some m) (hmt : m.tbl = t)
    (hw : q.whereList = []) (hpk : q.flags.wherePK = false) :
    (q.flags.allWithDeleted = false →
      q.appendWhere fmter b =
        .ok (b ++ " WHERE " ++ t.Alias ++ "." ++ f.SQLName ++
          (if q.flags.deleted then " IS NOT NULL" else " IS NULL")))
  ∧ (q.flags.allWithDeleted = true → q.appendWhere fmter b = .ok b) := by
  constructor
  · intro hall
    have hsd : q.tobaseQuery.isSoftDelete = true := by
      simp [baseQuery.isSoftDelete, ht, hf, hall]
    cases hd : q.flags.deleted <;>
      simp [whereBaseQuery.appendWhere, whereBaseQuery.appendWhereSoftDelete, hw, hsd, hpk,
        hm, hmt, hf, hd, lt_irrefl]
  · intro hall
    have hsd : q.tobaseQuery.isSoftDelete = false := by
      simp [baseQuery.isSoftDelete, ht, hf, hall]
    simp [whereBaseQuery.appendWhere, hw, hsd, hpk]

theorem C10_witness :
    (qC10.appendWhere Fmter.lit "" =
      .ok ("" ++ " WHERE " ++ tableSD.Alias ++ "." ++ fieldDeletedAt.SQLName ++
        (if qC10.flags.deleted then " IS NOT NULL" else " IS NULL")))
  ∧ (qC10all.appendWhere Fmter.lit "" = .ok "") :=
  ⟨(C10 qC10 tableSD fieldDeletedAt modelSD Fmter.lit "" rfl rfl rfl rfl rfl rfl).1 rfl,
    (C10 qC10all tableSD fieldDeletedAt modelSD Fmter.lit "" rfl rfl rfl rfl rfl rfl).2 rfl⟩

/-! Helper lemmas for C6: the require-WHERE error can only come from the
short-circuit in `mustAppendWhere`, never from `appendWhere` itself. -/

theorem wherePK_msg_ne (s : String) :
    ("bun: WherePK does not support " ++ s) ≠
      "bun: Update and Delete queries require Where clause (try WherePK)" := by
  intro h
  have h2 : ("bun: WherePK does not support ".data ++ s.data).take 10
      = ("bun: Update and Delete queries require Where clause (try WherePK)".data).take 10 := by
    rw [← String.data_append, h]
  rw [List.take_append_of_le_length (by decide)] at h2
  exact absurd h2 (by decide)

theorem appendWherePK_ne_requireWhere (q : whereBaseQuery) (fmter : Fmter) (b : String) :
    q.appendWherePK fmter b ≠
      .error "bun: Update and Delete queries require Where clause (try WherePK)" := by
  unfold whereBaseQuery.appendWherePK
  cases hc : (q.table.getD nilTable).CheckPKs with
  | some e =>
    simp only [hc]
    have he : e = "bun: table has no primary key" := by
      unfold Table.CheckPKs at hc
      split at hc <;> simp_all
    subst he
    intro h
    injection h with h
    exact absurd h (by decide)
  | none =>
    simp only [hc]
    cases hm : q.tableModel with
    | none =>
      simp only [hm]
      intro h; injection h with h; exact absurd h (by decide)
    | some m =>
      simp only [hm]
      cases hv : m.val with
      | strct vals => simp [hv]
      | slice elems => simp [hv]
      | other tn =>
        simp only [hv]
        intro h; injection h with h
        exact wherePK_msg_ne tn h

theorem appendWhere_ne_requireWhere (q : whereBaseQuery) (fmter : Fmter) (b : String) :
    q.appendWhere fmter b ≠
      .error "bun: Update and Delete queries require Where clause (try WherePK)" := by
  unfold whereBaseQuery.appendWhere
  split
  · simp
  · cases hpk : q.flags.wherePK with
    | true =>
      simp only [hpk, if_true]
      exact appendWherePK_ne_requireWhere q fmter _
    | false => simp [hpk]

/-- C6 (amended): `mustAppendWhere` returns the require-WHERE error exactly
when the where list is empty and the restrict-to-PK flag is unset; with the
flag set, an empty where list and soft-delete filtering inactive, it
returns ` WHERE ` followed by exactly the primary-key predicate (succeeding
whenever that predicate renders). -/
theorem C6 (q : whereBaseQuery) (fmter : Fmter) (b : String) :
    (q.mustAppendWhere fmter b =
        .error "bun: Update and Delete queries require Where clause (try WherePK)"
      ↔ q.whereList = [] ∧ q.flags.wherePK = false)
  ∧ (q.whereList = [] → q.flags.wherePK = true → q.tobaseQuery.isSoftDelete = false →
      q.mustAppendWhere fmter b = q.appendWherePK fmter (b ++ " WHERE ")) := by
  constructor
  · constructor
    · intro h
      unfold whereBaseQuery.mustAppendWhere at h
      split at h
      · rename_i hcond
        simp only [Bool.and_eq_true, Bool.not_eq_true', List.isEmpty_iff] at hcond
        exact hcond
      · exact absurd h (appendWhere_ne_requireWhere q fmter b)
    · rintro ⟨h1, h2⟩
      simp [whereBaseQuery.mustAppendWhere, h1, h2]
  · intro h1 h2 h3
    unfold whereBaseQuery.mustAppendWhere
    rw [if_neg (by simp [h1, h2])]
    unfold whereBaseQuery.appendWhere
    rw [if_neg (by simp [h2])]
    simp [h1, h2, h3, lt_irrefl]

/-- C6 counterexample: on a state whose table has a soft-delete field, the
restrict-to-PK flag set and an empty where list, `mustAppendWhere` succeeds
but the emitted WHERE clause contains the soft-delete predicate in addition
to the primary-key predicate — not "only the primary-key predicate". -/
theorem C6_counterexample :
    qC6wpk.whereList = [] ∧ qC6wpk.flags.wherePK = true
  ∧ qC6wpk.mustAppendWhere Fmter.lit ""
      = .ok " WHERE d.deleted_at IS NULL AND (d.id = 7)"
  ∧ qC6wpk.appendWherePK Fmter.lit " WHERE " = .ok " WHERE (d.id = 7)"
  ∧ (" WHERE d.deleted_at IS NULL AND (d.id = 7)" ≠ " WHERE (d.id = 7)") :=
  ⟨rfl, rfl, rfl, rfl, by decide⟩

theorem C6_witness :
    (qW.mustAppendWhere Fmter.lit ""
      = .error "bun: Update and Delete queries require Where clause (try WherePK)")
  ∧ (qC4pk.mustAppendWhere Fmter.lit ""
      = qC4pk.appendWherePK Fmter.lit ("" ++ " WHERE ")) :=
  ⟨(C6 qW Fmter.lit "").1.mpr ⟨rfl, rfl⟩, (C6 qC4pk Fmter.lit "").2 rfl rfl rfl⟩

end Bun
